import Mathlib

/-!
Verification development for the mqttparse CONNECT-packet decoder.

Bytes are modelled as natural numbers (values below 256); byte slices and
borrowed string/byte views are modelled as lists of naturals.  The Rust
outcome type `Result<Status<T>, Error>` together with the possibility of a
runtime panic is flattened into one inductive `Parsed` with four
constructors: `complete` (for `Ok(Status::Complete(v))`), `needMore` (for
`Ok(Status::Partial)`), `err` (for `Err(e)`), and `panic` (for a runtime
panic, e.g. an out-of-bounds slice index inside `byteorder`).
-/

namespace Mqttparse

/-- The error enumeration of src/error.rs. -/
inductive Error where
  | PacketType
  | PacketFlag
  | RemainingLength
  | InvalidLength
  | Utf8
  | InvalidConnectFlag
  | InvalidQoS
  | InvalidWillRetain
  | PasswordWithoutUsername
deriving DecidableEq

/-- Quality-of-service enumeration of the crate root. -/
inductive QoS where
  | AtMostOnce
  | AtLeastOnce
  | ExactlyOnce
deriving DecidableEq

/-- Modelled from the spec: `QoS::from_u8` lives in the crate root (lib.rs),
which is not under src/.  Per sections 4.2(b) and 4.3 it converts the raw
2-bit pattern, mapping 0 to `AtMostOnce`, 1 to `AtLeastOnce`, 2 to
`ExactlyOnce`, and failing with `InvalidQoS` for any input outside the
enumeration (in particular the reserved pattern 3). -/
def QoS.from_u8 (b : Nat) : Except Error QoS :=
  match b with
  | 0 => .ok .AtMostOnce
  | 1 => .ok .AtLeastOnce
  | 2 => .ok .ExactlyOnce
  | _ => .error .InvalidQoS

/-- Flattened outcome of a decode call: `Result<Status<T>, Error>` of
src/status.rs and src/error.rs, plus a `panic` case for runtime panics. -/
inductive Parsed (α : Type) where
  | complete : α → Parsed α
  | needMore : Parsed α
  | err : Error → Parsed α
  | panic : Parsed α
deriving DecidableEq

/-- Sequencing as performed by the `complete!` macro combined with the `?`
operator: a `complete` value flows on, every other outcome short-circuits. -/
def Parsed.bind {α β : Type} (p : Parsed α) (f : α → Parsed β) : Parsed β :=
  match p with
  | .complete a => f a
  | .needMore => .needMore
  | .err e => .err e
  | .panic => .panic

/-- The `?` operator applied to a plain `Result` (as on `QoS::from_u8`). -/
def Parsed.ofExcept {α : Type} : Except Error α → Parsed α
  | .ok a => .complete a
  | .error e => .err e

/-- Whether a byte is a UTF-8 continuation byte (0x80 to 0xBF). -/
def isUtf8Cont (b : Nat) : Bool := 128 ≤ b && b ≤ 191

/-- Modelled from the spec: section 4.1 requires the payload of
`decode_string` to be valid UTF-8 (the check performed by
`str::from_utf8`); the helper lives in the crate root, not under src/.
This is the RFC 3629 well-formedness condition on a byte sequence. -/
def utf8Valid : List Nat → Bool
  | [] => true
  | b :: rest =>
    if b ≤ 127 then
      utf8Valid rest
    else if 194 ≤ b && b ≤ 223 then
      match rest with
      | c1 :: rest2 => isUtf8Cont c1 && utf8Valid rest2
      | _ => false
    else if b == 224 then
      match rest with
      | c1 :: c2 :: rest2 => (160 ≤ c1 && c1 ≤ 191) && isUtf8Cont c2 && utf8Valid rest2
      | _ => false
    else if (225 ≤ b && b ≤ 236) || b == 238 || b == 239 then
      match rest with
      | c1 :: c2 :: rest2 => isUtf8Cont c1 && isUtf8Cont c2 && utf8Valid rest2
      | _ => false
    else if b == 237 then
      match rest with
      | c1 :: c2 :: rest2 => (128 ≤ c1 && c1 ≤ 159) && isUtf8Cont c2 && utf8Valid rest2
      | _ => false
    else if b == 240 then
      match rest with
      | c1 :: c2 :: c3 :: rest2 =>
        (144 ≤ c1 && c1 ≤ 191) && isUtf8Cont c2 && isUtf8Cont c3 && utf8Valid rest2
      | _ => false
    else if 241 ≤ b && b ≤ 243 then
      match rest with
      | c1 :: c2 :: c3 :: rest2 =>
        isUtf8Cont c1 && isUtf8Cont c2 && isUtf8Cont c3 && utf8Valid rest2
      | _ => false
    else if b == 244 then
      match rest with
      | c1 :: c2 :: c3 :: rest2 =>
        (128 ≤ c1 && c1 ≤ 143) && isUtf8Cont c2 && isUtf8Cont c3 && utf8Valid rest2
      | _ => false
    else false

/-- Modelled from the spec: `decode_len_prefixed_bytes` (section 4.1) lives
in the crate root, not under src/.  It reads a 2-byte big-endian length `n`;
with fewer than 2 bytes it is `Partial`, with fewer than `2+n` bytes it is
`Partial`, otherwise `Complete` with a view of exactly the `n` bytes after
the prefix. -/
def decode_len_prefixed_bytes (buf : List Nat) : Parsed (List Nat) :=
  match buf with
  | b0 :: b1 :: rest =>
    let n := b0 * 256 + b1
    if rest.length < n then .needMore else .complete (rest.take n)
  | _ => .needMore

/-- Modelled from the spec: `decode_string` (section 4.1) lives in the crate
root, not under src/.  Identical framing to `decode_len_prefixed_bytes`,
but after the full span is confirmed present the bytes must be valid UTF-8,
else `DecodeError::Utf8`.  The string view is kept as its byte list. -/
def decode_string (buf : List Nat) : Parsed (List Nat) :=
  match buf with
  | b0 :: b1 :: rest =>
    let n := b0 * 256 + b1
    if rest.length < n then .needMore
    else if utf8Valid (rest.take n) then .complete (rest.take n)
    else .err .Utf8
  | _ => .needMore

/-- The `read_byte!` macro of src/status.rs: guard `bytes.len() - read > 0`,
then take `bytes[read]` and advance by one.  The cursor arithmetic is done
at the call sites, as in the macro expansion. -/
def read_byte (bytes : List Nat) (read : Nat) : Parsed Nat :=
  if bytes.length - read > 0 then .complete (bytes.getD read 0) else .needMore

/-- The `read_u16!` macro of src/status.rs: guard `bytes.len() - read > 0`,
then `BigEndian::read_u16(&bytes[read..])`.  The byteorder call reads two
big-endian bytes and panics when fewer than two bytes remain, which the
one-byte guard does not exclude. -/
def read_u16 (bytes : List Nat) (read : Nat) : Parsed Nat :=
  if bytes.length - read > 0 then
    if bytes.length - read ≥ 2 then
      .complete (bytes.getD read 0 * 256 + bytes.getD (read + 1) 0)
    else .panic
  else .needMore

/-- The `read_str!` macro of src/status.rs: guard `bytes.len() - read > 0`,
then `complete!(decode_string(&bytes[read..]))`. -/
def read_str (bytes : List Nat) (read : Nat) : Parsed (List Nat) :=
  if bytes.length - read > 0 then decode_string (bytes.drop read) else .needMore

/-- The `read_bytes!` macro (and its `read_bytes_final!` variant, which only
differs by not advancing the cursor afterwards) of src/status.rs. -/
def read_bytes (bytes : List Nat) (read : Nat) : Parsed (List Nat) :=
  if bytes.length - read > 0 then decode_len_prefixed_bytes (bytes.drop read) else .needMore

/-- The decoded CONNECT packet of src/connect.rs.  Borrowed string and byte
views are byte lists; `keep_alive` is the duration in whole seconds. -/
structure Connect where
  name : List Nat
  revision : Nat
  flags : Nat
  clean_session : Bool
  will_flag : Bool
  will_topic : Option (List Nat)
  will_msg : Option (List Nat)
  will_qos : QoS
  will_retain : Bool
  username_present : Bool
  username : Option (List Nat)
  password_present : Bool
  password : Option (List Nat)
  keep_alive : Nat
  client_id : List Nat
deriving DecidableEq

/-- PROTOCOL_REVISION_3_1_1 of src/connect.rs. -/
def PROTOCOL_REVISION_3_1_1 : Nat := 4

/-- `Connect::new` of src/connect.rs. -/
def Connect.new (name client_id : List Nat) (keep_alive : Nat) : Connect where
  name := name
  revision := PROTOCOL_REVISION_3_1_1
  flags := 0
  clean_session := false
  will_flag := false
  will_topic := none
  will_msg := none
  will_qos := .AtMostOnce
  will_retain := false
  username_present := false
  username := none
  password_present := false
  password := none
  keep_alive := keep_alive
  client_id := client_id

/-- `Connect::with_revision`. -/
def Connect.with_revision (c : Connect) (revision : Nat) : Connect :=
  { c with revision := revision }

/-- `Connect::with_flags`. -/
def Connect.with_flags (c : Connect) (flags : Nat) : Connect :=
  { c with flags := flags }

/-- `Connect::with_clean_session`. -/
def Connect.with_clean_session (c : Connect) (clean_session : Bool) : Connect :=
  { c with clean_session := clean_session }

/-- `Connect::with_will_flag`. -/
def Connect.with_will_flag (c : Connect) (will_flag : Bool) : Connect :=
  { c with will_flag := will_flag }

/-- `Connect::with_will_topic`. -/
def Connect.with_will_topic (c : Connect) (will_topic : List Nat) : Connect :=
  { c with will_topic := some will_topic }

/-- `Connect::with_will_msg`. -/
def Connect.with_will_msg (c : Connect) (will_msg : List Nat) : Connect :=
  { c with will_msg := some will_msg }

/-- `Connect::with_will_qos`. -/
def Connect.with_will_qos (c : Connect) (will_qos : QoS) : Connect :=
  { c with will_qos := will_qos }

/-- `Connect::with_will_retain`. -/
def Connect.with_will_retain (c : Connect) (will_retain : Bool) : Connect :=
  { c with will_retain := will_retain }

/-- `Connect::with_username`: sets the presence flag together with the field. -/
def Connect.with_username (c : Connect) (username : List Nat) : Connect :=
  { c with username_present := true, username := some username }

/-- `Connect::with_password`: sets the presence flag together with the field. -/
def Connect.with_password (c : Connect) (password : List Nat) : Connect :=
  { c with password_present := true, password := some password }

/-- `Connect::from_bytes` of src/connect.rs, lines 159-241, with the
macros of src/status.rs expanded in place.  The cursor `read` starts at 0
and is advanced exactly as in the source. -/
def Connect.from_bytes (bytes : List Nat) : Parsed Connect :=
  (read_str bytes 0).bind fun name =>
  (read_byte bytes (0 + (2 + name.length))).bind fun revision =>
  (read_byte bytes (0 + (2 + name.length) + 1)).bind fun flags =>
  if flags &&& 1 ≠ 0 then .err .InvalidConnectFlag
  else
    let clean_session := flags &&& 2 == 1
    let will_flag := flags &&& 4 == 1
    (Parsed.ofExcept (QoS.from_u8 (flags &&& 24))).bind fun will_qos =>
    let will_retain := flags &&& 32 == 1
    let password_present := flags &&& 64 == 1
    let username_present := flags &&& 128 == 1
    if will_flag = false ∧ will_qos ≠ QoS.AtMostOnce then .err .InvalidQoS
    else if will_flag = false ∧ will_retain = true then .err .InvalidWillRetain
    else if username_present = false ∧ password_present = true then .err .PasswordWithoutUsername
    else
      (read_u16 bytes (0 + (2 + name.length) + 1 + 1)).bind fun keep_alive =>
      let read := 0 + (2 + name.length) + 1 + 1 + 2
      (read_str bytes read).bind fun client_id =>
      let read := read + (2 + client_id.length)
      (if will_flag then
        (read_str bytes read).bind fun wt =>
        (read_bytes bytes (read + (2 + wt.length))).bind fun wm =>
        .complete (some wt, some wm, read + (2 + wt.length) + (2 + wm.length))
      else .complete (none, none, read)).bind fun wres =>
      match wres with
      | (will_topic, will_msg, read) =>
        (if username_present then
          (read_str bytes read).bind fun u => .complete (some u, read + (2 + u.length))
        else .complete (none, read)).bind fun ures =>
        match ures with
        | (username, read) =>
          (if password_present then
            (read_bytes bytes read).bind fun pw => .complete (some pw)
          else .complete none).bind fun password =>
          .complete {
            name := name
            revision := revision
            flags := flags
            clean_session := clean_session
            will_flag := will_flag
            will_topic := will_topic
            will_msg := will_msg
            will_qos := will_qos
            will_retain := will_retain
            username_present := username_present
            username := username
            password_present := password_present
            password := password
            keep_alive := keep_alive
            client_id := client_id
          }

/-- The `encode_str` helper of the tests in src/connect.rs: a 2-byte
big-endian u16 length prefix (the length cast to u16) followed by the
bytes. -/
def encode_str (s : List Nat) : List Nat :=
  (s.length % 65536) / 256 :: s.length % 256 :: s

/-- The packet decoded from the buffer [0, 0, 0, 0, 0, 0, 0, 0] (empty
protocol name, revision 0, flags 0, keep-alive 0, empty client id). -/
def packetZero : Connect := {
  name := [],
  revision := 0,
  flags := 0,
  clean_session := false,
  will_flag := false,
  will_topic := none,
  will_msg := none,
  will_qos := .AtMostOnce,
  will_retain := false,
  username_present := false,
  username := none,
  password_present := false,
  password := none,
  keep_alive := 0,
  client_id := [] }

/-- The packet decoded from the buffer [0, 1, 65, 4, 0, 0, 60, 0, 0]
(protocol name "A", revision 4, flags 0, keep-alive 60, empty client id). -/
def packetA : Connect := {
  name := [65],
  revision := 4,
  flags := 0,
  clean_session := false,
  will_flag := false,
  will_topic := none,
  will_msg := none,
  will_qos := .AtMostOnce,
  will_retain := false,
  username_present := false,
  username := none,
  password_present := false,
  password := none,
  keep_alive := 60,
  client_id := [] }

/-- The construction-time invariants claimed by the spec for `Connect`
values: an unset will flag forces the default will QoS, an unset will
retain, and absent will topic and message; an absent username forces an
absent password flag; and the reserved low bit of the raw flags byte is
clear. -/
def connectInvariant (c : Connect) : Prop :=
  (c.will_flag = false → c.will_qos = QoS.AtMostOnce ∧ c.will_retain = false ∧
    c.will_topic = none ∧ c.will_msg = none) ∧
  (c.username_present = false → c.password_present = false) ∧
  c.flags &&& 1 = 0

instance (c : Connect) : Decidable (connectInvariant c) := by
  unfold connectInvariant
  infer_instance

theorem Parsed.complete_bind {α β : Type} (a : α) (f : α → Parsed β) :
    (Parsed.complete a).bind f = f a := rfl

theorem Parsed.bind_eq_complete {α β : Type} {p : Parsed α} {f : α → Parsed β} {b : β} :
    p.bind f = .complete b ↔ ∃ a, p = .complete a ∧ f a = .complete b := by
  cases p <;> simp [Parsed.bind]

/-- Masking with an even mask can never produce the value one, so each of the
masked-flag comparisons of src/connect.rs lines 175-180 is identically
false. -/
theorem land_even_ne_one {m : Nat} (hm : m % 2 = 0) (x : Nat) : x &&& m ≠ 1 := by
  intro h
  have h0 := congrArg (fun v => v.testBit 0) h
  simp only [Nat.testBit_land] at h0
  have hm0 : m.testBit 0 = false := by
    simp [Nat.testBit_zero, Nat.mod_two_ne_one.mpr hm]
  rw [hm0] at h0
  simp at h0

theorem land_even_beq_one_eq_false {m : Nat} (hm : m % 2 = 0) (x : Nat) :
    (x &&& m == 1) = false :=
  beq_eq_false_iff_ne.mpr (land_even_ne_one hm x)

theorem read_byte_drop (bytes : List Nat) (read : Nat) :
    read_byte bytes read =
      match bytes.drop read with
      | [] => .needMore
      | b :: _ => .complete b := by
  induction bytes generalizing read with
  | nil => simp [read_byte]
  | cons a l ih =>
    cases read with
    | zero => simp [read_byte]
    | succ r =>
      have hstep : read_byte (a :: l) (r + 1) = read_byte l r := by
        simp [read_byte, Nat.succ_sub_succ]
      rw [hstep, List.drop_succ_cons, ih]

theorem read_str_zero_cons (b : Nat) (bs : List Nat) :
    read_str (b :: bs) 0 = decode_string (b :: bs) := by
  simp [read_str]

/-- Characterisation of every packet `from_bytes` can complete with: because
each masked-flag comparison of src/connect.rs lines 175-180 tests an even
mask against the value one, all five derived booleans are false, the gated
optional fields stay `none`, the will QoS that survives validation is the
default, and the reserved bit was checked to be clear. -/
theorem from_bytes_complete_fields {bs : List Nat} {p : Connect}
    (h : Connect.from_bytes bs = .complete p) :
    p.clean_session = false ∧ p.will_flag = false ∧ p.will_qos = QoS.AtMostOnce ∧
    p.will_retain = false ∧ p.username_present = false ∧ p.password_present = false ∧
    p.will_topic = none ∧ p.will_msg = none ∧ p.username = none ∧ p.password = none ∧
    p.flags &&& 1 = 0 := by
  unfold Connect.from_bytes at h
  simp only [Parsed.bind_eq_complete, Parsed.complete_bind,
    land_even_beq_one_eq_false (show (2:Nat) % 2 = 0 from rfl),
    land_even_beq_one_eq_false (show (4:Nat) % 2 = 0 from rfl),
    land_even_beq_one_eq_false (show (32:Nat) % 2 = 0 from rfl),
    land_even_beq_one_eq_false (show (64:Nat) % 2 = 0 from rfl),
    land_even_beq_one_eq_false (show (128:Nat) % 2 = 0 from rfl),
    ite_eq_iff, reduceCtorEq, false_and, and_false, false_or, or_false,
    Bool.false_eq_true, if_false, and_true, true_and, not_not, ne_eq,
    Parsed.complete.injEq] at h
  obtain ⟨name, -, rev, -, flags, -, hflag, qos, -, hqos, ka, -, cid, -, hp⟩ := h
  subst hqos
  subst hp
  exact ⟨rfl, rfl, rfl, rfl, rfl, rfl, rfl, rfl, rfl, rfl, hflag⟩

/-- C1: the claimed bit layout is not what the code computes.  On the buffer
name "" / revision 4 / flags 0x02 / keep-alive 60 / client-id "", the flags
byte passes the validation gate and has bit 1 set, yet the decoded
`clean_session` is false, because line 175 of src/connect.rs compares the
masked byte to the value one instead of testing it nonzero. -/
theorem clean_session_false_despite_bit_set :
    (2 : Nat) &&& 2 ≠ 0 ∧
    Connect.from_bytes [0, 0, 4, 2, 0, 60, 0, 0] = .complete {
      name := [],
      revision := 4,
      flags := 2,
      clean_session := false,
      will_flag := false,
      will_topic := none,
      will_msg := none,
      will_qos := .AtMostOnce,
      will_retain := false,
      username_present := false,
      username := none,
      password_present := false,
      password := none,
      keep_alive := 60,
      client_id := [] } :=
  ⟨by decide, by decide⟩

/-- C2: the end-to-end scenario buffer decodes to `Complete`, and every field
matches the claim except `clean_session`, which the code leaves false even
though flags byte 0x02 has the clean-session bit set (line 175 of
src/connect.rs compares the masked byte to one). -/
theorem end_to_end_scenario_clean_session_false :
    Connect.from_bytes [0, 4, 77, 81, 84, 84, 4, 2, 0, 60, 0, 3, 97, 98, 99] = .complete {
      name := [77, 81, 84, 84],
      revision := 4,
      flags := 2,
      clean_session := false,
      will_flag := false,
      will_topic := none,
      will_msg := none,
      will_qos := .AtMostOnce,
      will_retain := false,
      username_present := false,
      username := none,
      password_present := false,
      password := none,
      keep_alive := 60,
      client_id := [97, 98, 99] } := by
  decide

/-- C3: neither claimed rejection fires.  With flags 0x20 (will-retain set,
will-flag clear) the decode completes instead of failing with
`InvalidWillRetain`, and with flags 0x40 (password set, username clear) it
completes instead of failing with `PasswordWithoutUsername`, because the
masked-flag comparisons of src/connect.rs lines 178-179 test the mask
result against one and hence always yield false. -/
theorem flag_violation_checks_never_fire :
    Connect.from_bytes [0, 0, 0, 32, 0, 0, 0, 0] = .complete {
      name := [],
      revision := 0,
      flags := 32,
      clean_session := false,
      will_flag := false,
      will_topic := none,
      will_msg := none,
      will_qos := .AtMostOnce,
      will_retain := false,
      username_present := false,
      username := none,
      password_present := false,
      password := none,
      keep_alive := 0,
      client_id := [] } ∧
    Connect.from_bytes [0, 0, 0, 64, 0, 0, 0, 0] = .complete {
      name := [],
      revision := 0,
      flags := 64,
      clean_session := false,
      will_flag := false,
      will_topic := none,
      will_msg := none,
      will_qos := .AtMostOnce,
      will_retain := false,
      username_present := false,
      username := none,
      password_present := false,
      password := none,
      keep_alive := 0,
      client_id := [] } :=
  ⟨by decide, by decide⟩

/-- C4: the will-QoS field is not decoded through the claimed 2-bit map.  On
flags byte 0x0C (will-flag bit set, will-QoS bits 01) the decode fails with
`InvalidQoS` instead of producing `AtLeastOnce`, because line 177 of
src/connect.rs passes the masked but unshifted value 8 to the conversion. -/
theorem will_qos_pattern_01_rejected :
    (12 : Nat) &&& 4 ≠ 0 ∧ (12 : Nat) &&& 24 = 8 ∧
    Connect.from_bytes [0, 0, 4, 12] = .err .InvalidQoS :=
  ⟨by decide, by decide, by decide⟩

/-- C5: as soon as a complete protocol-name field, a revision byte, and a
flags byte with the reserved low bit set have been read, `from_bytes` fails
with `InvalidConnectFlag`, whatever bytes (including none) follow. -/
theorem reserved_bit_set_yields_invalid_connect_flag
    (name rest : List Nat) (rev flags : Nat)
    (hlen : name.length < 65536) (hval : utf8Valid name = true)
    (hbit : flags &&& 1 ≠ 0) :
    Connect.from_bytes (encode_str name ++ rev :: flags :: rest) =
      .err .InvalidConnectFlag := by
  have hB : encode_str name ++ rev :: flags :: rest
      = name.length % 65536 / 256 :: name.length % 256 ::
          (name ++ rev :: flags :: rest) := rfl
  have hn : name.length % 65536 / 256 * 256 + name.length % 256 = name.length := by
    omega
  have hds : decode_string (name.length % 65536 / 256 :: name.length % 256 ::
      (name ++ rev :: flags :: rest)) = .complete name := by
    simp only [decode_string, hn]
    have hnl : ¬ ((name ++ rev :: flags :: rest).length < name.length) := by
      simp [List.length_append]
    rw [if_neg hnl, List.take_left name (rev :: flags :: rest)]
    simp [hval]
  have hd1 : (name.length % 65536 / 256 :: name.length % 256 ::
      (name ++ rev :: flags :: rest)).drop (0 + (2 + name.length))
      = rev :: flags :: rest := by
    rw [show 0 + (2 + name.length) = name.length + 1 + 1 from by omega]
    rw [List.drop_succ_cons, List.drop_succ_cons]
    exact List.drop_left name (rev :: flags :: rest)
  have hd2 : (name.length % 65536 / 256 :: name.length % 256 ::
      (name ++ rev :: flags :: rest)).drop (0 + (2 + name.length) + 1)
      = flags :: rest := by
    rw [← List.drop_drop, hd1]
    rfl
  rw [hB]
  unfold Connect.from_bytes
  rw [read_str_zero_cons, hds]
  simp only [Parsed.complete_bind]
  rw [read_byte_drop, hd1]
  simp only [Parsed.complete_bind]
  rw [read_byte_drop, hd2]
  simp only [Parsed.complete_bind]
  rw [if_pos hbit]

/-- Witness for C5 at name "M", revision 0, flags 1, no trailing bytes. -/
theorem reserved_bit_set_yields_invalid_connect_flag_witness :
    ([77] : List Nat).length < 65536 ∧ utf8Valid [77] = true ∧
    (1 : Nat) &&& 1 ≠ 0 ∧
    Connect.from_bytes (encode_str [77] ++ 0 :: 1 :: []) = .err .InvalidConnectFlag :=
  ⟨by decide, by decide, by decide,
    reserved_bit_set_yields_invalid_connect_flag [77] [] 0 1
      (by decide) (by decide) (by decide)⟩

/-- C6: a buffer holding a complete name field, a revision byte, a valid
flags byte, and exactly one further byte makes `from_bytes` panic inside
the big-endian u16 read of the keep-alive field (the `read_u16!` guard only
checks for one remaining byte), rather than return the claimed Partial. -/
theorem truncated_keep_alive_panics :
    Connect.from_bytes [0, 0, 0, 0, 0] = .panic := by
  decide

/-- C7: any buffer of fewer than two bytes decodes to Partial. -/
theorem short_buffer_needs_more (bs : List Nat) (h : bs.length < 2) :
    Connect.from_bytes bs = .needMore := by
  match bs with
  | [] => rfl
  | [b] => rfl
  | b1 :: b2 :: rest => simp only [List.length_cons] at h; omega

/-- Witness for C7 at the one-byte buffer [5]. -/
theorem short_buffer_needs_more_witness :
    ([5] : List Nat).length < 2 ∧ Connect.from_bytes [5] = .needMore :=
  ⟨by decide, short_buffer_needs_more [5] (by decide)⟩

/-- C8 counterexample: the builders enforce nothing, so a chained
`with_will_retain(true)` on a fresh `Connect::new` value yields a packet
with the will flag clear but will-retain set, violating the claimed
construction-time invariant. -/
theorem builder_allows_invariant_violation :
    ¬ connectInvariant ((Connect.new [] [] 0).with_will_retain true) := by
  decide

/-- C8 (amended): every packet produced by `from_bytes` satisfies the
invariants; values assembled through `Connect::new` and the `with_*`
builders are not so constrained. -/
theorem from_bytes_packets_satisfy_invariant (bs : List Nat) (p : Connect)
    (h : Connect.from_bytes bs = .complete p) : connectInvariant p := by
  obtain ⟨hcs, hwf, hq, hwr, hup, hpp, hwt, hwm, hu, hpw, hfl⟩ :=
    from_bytes_complete_fields h
  exact ⟨fun _ => ⟨hq, hwr, hwt, hwm⟩, fun _ => hpp, hfl⟩

/-- Witness for the amended C8 at the all-zero eight-byte buffer. -/
theorem from_bytes_packets_satisfy_invariant_witness :
    Connect.from_bytes [0, 0, 0, 0, 0, 0, 0, 0] = .complete packetZero ∧
    connectInvariant packetZero :=
  ⟨by decide, from_bytes_packets_satisfy_invariant [0, 0, 0, 0, 0, 0, 0, 0] packetZero (by decide)⟩

/-- C9: decoding is deterministic; the decoder is a pure function of the
byte buffer, so two calls on the same bytes give equal outcomes. -/
theorem from_bytes_deterministic (bs : List Nat) :
    Connect.from_bytes bs = Connect.from_bytes bs := rfl

/-- C10: whenever `from_bytes` completes, the five derived booleans are all
false and the four gated optional fields are all absent, since each
masked-flag comparison tests an even mask against the value one. -/
theorem complete_packet_flags_all_false (bs : List Nat) (p : Connect)
    (h : Connect.from_bytes bs = .complete p) :
    p.clean_session = false ∧ p.will_flag = false ∧ p.will_retain = false ∧
    p.username_present = false ∧ p.password_present = false ∧
    p.will_topic = none ∧ p.will_msg = none ∧ p.username = none ∧
    p.password = none := by
  obtain ⟨hcs, hwf, hq, hwr, hup, hpp, hwt, hwm, hu, hpw, hfl⟩ :=
    from_bytes_complete_fields h
  exact ⟨hcs, hwf, hwr, hup, hpp, hwt, hwm, hu, hpw⟩

/-- Witness for C10 at the buffer name "A" / revision 4 / flags 0 /
keep-alive 60 / client-id "". -/
theorem complete_packet_flags_all_false_witness :
    Connect.from_bytes [0, 1, 65, 4, 0, 0, 60, 0, 0] = .complete packetA ∧
    (packetA.clean_session = false ∧ packetA.will_flag = false ∧
      packetA.will_retain = false ∧ packetA.username_present = false ∧
      packetA.password_present = false ∧ packetA.will_topic = none ∧
      packetA.will_msg = none ∧ packetA.username = none ∧
      packetA.password = none) :=
  ⟨by decide, complete_packet_flags_all_false [0, 1, 65, 4, 0, 0, 60, 0, 0] packetA (by decide)⟩

end Mqttparse
